import Mathlib

/-!
Verification development for the hotel-rate-optimizer forecasting and
dynamic-pricing pipeline (`backend/pricing.py`, `ml/features.py`,
`ml/model.py`).

Conventions of the shallow embedding:
* Python floats are modelled as `ℚ`; a float slot that can hold `NaN`
  (or SQL `NULL` / pandas missing values) is modelled as `Option ℚ`, with
  `none` standing for the undefined value.  Every `<` comparison against
  `NaN` in the source is `False`; the `Option` matches below reproduce the
  resulting control flow explicitly.
* Dates are day numbers in `ℤ` (pandas timestamps at midnight); adding one
  day is `+ 1`.  Day-of-week is the day number modulo 7, with day 0 chosen
  as a Monday to match `pandas.Timestamp.dayofweek`.
* Python's `round(x, n)` is round-half-even on the scaled value; it is
  modelled exactly by `roundHalfEven` (idealized decimal behaviour;
  binary-representation artefacts of IEEE doubles are outside the model).
* pandas `groupby` keeps the relative order of the rows of a group, so
  group-wise `rolling`/`shift` results are computed positionally on the
  filtered sub-list.
* The learned LightGBM regressor is an opaque fitted predictor: the
  primary path of `forecast_demand` is parameterized by
  `reg : Option (FeatureRow → ℚ)`, where `some f` is a successful fit
  (`model.predict` maps each feature row through `f`) and `none` is the
  `except Exception` fallback path (library missing or fit failure).
-/

/-- Round-half-even on `ℚ`: Python's `round` applied to the scaled value. -/
def roundHalfEven (q : ℚ) : ℤ :=
  if Int.fract q < 1/2 then ⌊q⌋
  else if (1:ℚ)/2 < Int.fract q then ⌊q⌋ + 1
  else if Even ⌊q⌋ then ⌊q⌋ else ⌊q⌋ + 1

/-- Python `round(x, 2)` (used for `recommended_adr`). -/
def round2 (q : ℚ) : ℚ := (roundHalfEven (q * 100) : ℚ) / 100

/-- Python `round(x, 4)` (used for `demand_forecast`). -/
def round4 (q : ℚ) : ℚ := (roundHalfEven (q * 10000) : ℚ) / 10000

/-- pandas `clip(lo, hi)` on a defined value. -/
def clipQ (lo hi q : ℚ) : ℚ := max lo (min hi q)

/-- Mean of a window of defined values (pandas `mean`; callers guard
non-emptiness, pandas would give `NaN` on an empty window). -/
def listMean (l : List ℚ) : ℚ := l.sum / l.length

/-- pandas `median`: sort ascending; middle element for odd length, mean
of the two middle elements for even length. -/
def listMedian (l : List ℚ) : ℚ :=
  let s := List.insertionSort (· ≤ ·) l
  let n := s.length
  if n % 2 = 1 then s.getD (n / 2) 0
  else (s.getD (n / 2 - 1) 0 + s.getD (n / 2) 0) / 2

/-- The trailing `n`-element window of a list. -/
def takeLast (n : ℕ) (l : List α) : List α := l.drop (l.length - n)

/-- A row of the `reservations` table as selected by `read_tables`
(`SELECT date, room_type, rooms_sold, rooms_available, adr`). -/
structure ReservationRow where
  stay_date : ℤ
  room_type : String
  rooms_sold : ℕ
  rooms_available : ℕ
  adr : ℚ
deriving DecidableEq

/-- A row of the `competitor_rates` table
(`SELECT date, competitor, room_type, rate`). -/
structure CompetitorRow where
  stay_date : ℤ
  competitor : String
  room_type : String
  rate : ℚ
deriving DecidableEq

/-- From `read_tables`: `rooms_sold / rooms_available * 100`, clipped to
`[0, 100]`.  (`rooms_available` is positive for well-formed data; `ℚ`
division by zero yields `0` here where pandas would produce `inf`/`NaN`.) -/
def occupancyOf (r : ReservationRow) : ℚ :=
  clipQ 0 100 ((r.rooms_sold : ℚ) / (r.rooms_available : ℚ) * 100)

/-- The SQL `ORDER BY date, room_type` of `read_tables`. -/
def resOrder (a b : ReservationRow) : Prop :=
  a.stay_date < b.stay_date ∨ (a.stay_date = b.stay_date ∧ a.room_type ≤ b.room_type)

instance : DecidableRel resOrder := fun a b => by
  unfold resOrder; infer_instance

instance : IsTotal ReservationRow resOrder where
  total a b := by
    rcases lt_trichotomy a.stay_date b.stay_date with h | h | h
    · exact Or.inl (Or.inl h)
    · rcases le_total a.room_type b.room_type with h2 | h2
      · exact Or.inl (Or.inr ⟨h, h2⟩)
      · exact Or.inr (Or.inr ⟨h.symm, h2⟩)
    · exact Or.inr (Or.inl h)

instance : IsTrans ReservationRow resOrder where
  trans a b c hab hbc := by
    rcases hab with h1 | ⟨e1, l1⟩
    · rcases hbc with h2 | ⟨e2, _⟩
      · exact Or.inl (h1.trans h2)
      · exact Or.inl (e2 ▸ h1)
    · rcases hbc with h2 | ⟨e2, l2⟩
      · exact Or.inl (e1 ▸ h2)
      · exact Or.inr ⟨e1.trans e2, l1.trans l2⟩

/-- The `read_tables` stage (modulo the external SQL engine): the rows
arrive sorted by `(date, room_type)`. -/
def read_tables (res : List ReservationRow) : List ReservationRow :=
  List.insertionSort resOrder res

/-- The sort `df.sort_values(['room_type','stay_date'])` in `build_features`. -/
def featOrder (a b : ReservationRow) : Prop :=
  a.room_type < b.room_type ∨ (a.room_type = b.room_type ∧ a.stay_date ≤ b.stay_date)

instance : DecidableRel featOrder := fun a b => by
  unfold featOrder; infer_instance

instance : IsTotal ReservationRow featOrder where
  total a b := by
    rcases lt_trichotomy a.room_type b.room_type with h | h | h
    · exact Or.inl (Or.inl h)
    · rcases le_total a.stay_date b.stay_date with h2 | h2
      · exact Or.inl (Or.inr ⟨h, h2⟩)
      · exact Or.inr (Or.inr ⟨h.symm, h2⟩)
    · exact Or.inr (Or.inl h)

instance : IsTrans ReservationRow featOrder where
  trans a b c hab hbc := by
    rcases hab with h1 | ⟨e1, l1⟩
    · rcases hbc with h2 | ⟨e2, _⟩
      · exact Or.inl (h1.trans h2)
      · exact Or.inl (e2 ▸ h1)
    · rcases hbc with h2 | ⟨e2, l2⟩
      · exact Or.inl (e1 ▸ h2)
      · exact Or.inr ⟨e1.trans e2, l1.trans l2⟩

/-- pandas day-of-week of a day number (Monday = 0). -/
def dayOfWeek (d : ℤ) : ℤ := d % 7

/-- Median competitor rate for one `(stay_date, room_type)` key, `none`
when no competitor row matches.  This single definition serves both the
`comp_median` feature merge of `build_features` and the per-day
`comp_by_day_rt` dictionary of `ml/model.py`. -/
def compMedianDay (comp : List CompetitorRow) (d : ℤ) (rt : String) : Option ℚ :=
  let rates := (comp.filter (fun c => c.stay_date == d && c.room_type == rt)).map (·.rate)
  if rates.isEmpty then none else some (listMedian rates)

/-- One row of the feature table produced by `build_features`. -/
structure FeatureRow where
  stay_date : ℤ
  room_type : String
  occupancy : ℚ
  adr : ℚ
  dow : ℤ
  lag_occ_1 : Option ℚ
  roll_occ_7 : Option ℚ
  is_weekend : Bool
  comp_median : Option ℚ
  target : ℚ
deriving DecidableEq

/-- The function `build_features` from `ml/features.py`: sort by `(room_type, stay_date)`,
then per room type compute `shift(1)` of occupancy and
`rolling(7, min_periods=2).mean()` of occupancy, the weekend flag
(`dow ∈ {4, 5}`, i.e. Friday/Saturday), the per-`(date, room_type)`
competitor median (a column of `none`s when competitor data is absent or
empty), and `target = occupancy / 100`.

(The source merges the competitor median on a `datetime64` key against
`date`-typed competitor rows; the dtype mismatch can leave the feature
null.  The feature is consumed only by the opaque fitted regressor, so
the join is modelled as the intended key match — no claim observes the
difference.)
-/
def build_features (res : List ReservationRow) (competitors : Option (List CompetitorRow)) :
    List FeatureRow :=
  let sorted := List.insertionSort featOrder res
  sorted.mapIdx (fun i r =>
    let prev := (sorted.take i).filter (fun x => x.room_type == r.room_type)
    let lag := prev.getLast?.map occupancyOf
    let roll : Option ℚ :=
      if 2 ≤ min (prev.length + 1) 7 then
        some (listMean (takeLast 7 ((prev ++ [r]).map occupancyOf)))
      else none
    let cm : Option ℚ :=
      match competitors with
      | some cs => if cs.isEmpty then none else compMedianDay cs r.stay_date r.room_type
      | none => none
    { stay_date := r.stay_date
      room_type := r.room_type
      occupancy := occupancyOf r
      adr := r.adr
      dow := dayOfWeek r.stay_date
      lag_occ_1 := lag
      roll_occ_7 := roll
      is_weekend := dayOfWeek r.stay_date == 4 || dayOfWeek r.stay_date == 5
      comp_median := cm
      target := occupancyOf r / 100 })

/-- The per-position values of `s.rolling(7, min_periods=2).mean()` on a
group's `target` column. -/
def rollingMeans7 (g : List ℚ) : List (Option ℚ) :=
  (List.range g.length).map (fun j =>
    if 2 ≤ min (j + 1) 7 then some (listMean (takeLast 7 (g.take (j + 1)))) else none)

/-- pandas `bfill`: each undefined position takes the next defined value
at or after it. -/
def bfill (l : List (Option ℚ)) : List (Option ℚ) :=
  l.mapIdx (fun i _ => (l.drop i).findSome? id)

/-- One group's fallback forecasts:
`s.rolling(7, min_periods=2).mean().bfill()` followed by the trailing
`.clip(0, 1)`. -/
def fallbackGroupVals (g : List ℚ) : List (Option ℚ) :=
  (bfill (rollingMeans7 g)).map (Option.map (clipQ 0 1))

/-- The `except` branch of `forecast_demand`: the grouped
`transform(lambda s: s.rolling(7, min_periods=2).mean().bfill())`
followed by `.clip(0, 1)`, realized positionally (the value of row `i`
is its group's value at the row's position inside the group). -/
def forecast_fallback (rows : List FeatureRow) : List (Option ℚ) :=
  rows.mapIdx (fun i r =>
    let g := (rows.filter (fun x => x.room_type == r.room_type)).map (·.target)
    let j := ((rows.take i).filter (fun x => x.room_type == r.room_type)).length
    (fallbackGroupVals g).getD j none)

/-- The function `forecast_demand` from `ml/model.py`: the LightGBM path applies the
fitted predictor row-wise and clips to `[0, 1]`; any failure falls back to
the per-room-type rolling mean.  The regression fit and its feature
imputation (forward-fill then `0.0`) are absorbed into the opaque fitted
predictor. -/
def forecast_demand (reg : Option (FeatureRow → ℚ)) (rows : List FeatureRow) :
    List (Option ℚ) :=
  match reg with
  | some f => rows.map (fun r => some (clipQ 0 1 (f r)))
  | none => forecast_fallback rows

/-- The ADR history of one room type, in the row order of the input frame
(date order for the pipeline's `ORDER BY date, room_type` input). -/
def adrsOf (res : List ReservationRow) (rt : String) : List ℚ :=
  (res.filter (fun r => r.room_type == rt)).map (·.adr)

/-- The per-position values of `rolling(14, min_periods=3).median()` on a
group's `adr` column. -/
def rollingMedians14 (l : List ℚ) : List (Option ℚ) :=
  (List.range l.length).map (fun i =>
    if 3 ≤ min (i + 1) 14 then some (listMedian (takeLast 14 (l.take (i + 1)))) else none)

/-- The step `groupby(level=0).transform('last')` evaluated at one group: the last
non-null entry (pandas `last` skips nulls), broadcast over the group. -/
def lastNonNone (l : List (Option ℚ)) : Option ℚ := (l.filterMap id).getLast?

/-- The function `compute_baseline` from `backend/pricing.py`, at one room type:
the broadcast last non-null trailing-14 median of the group's ADR series.

The source's final `.fillna(fallback)` is modelled as a no-op: the left
series carries the `(room_type, row)` MultiIndex produced by the grouped
`rolling`, while `fallback` is indexed by row position only, so no label
of `fallback` aligns with the left index and nothing is filled (claim C6
is about exactly this line). -/
def compute_baseline (res : List ReservationRow) (rt : String) : Option ℚ :=
  lastNonNone (rollingMedians14 (adrsOf res rt))

/-- The baseline the spec describes for `compute_baseline` (§4.3): the
trailing-14 median ADR once 3 samples exist, else the room type's overall
median ADR. -/
def baselineSpec (res : List ReservationRow) (rt : String) : Option ℚ :=
  let adrs := adrsOf res rt
  if 3 ≤ adrs.length then some (listMedian (takeLast 14 adrs))
  else if adrs.isEmpty then none else some (listMedian adrs)

/-- The function `choose_price` from `backend/pricing.py`, verbatim:
* `np.isnan(baseline) or baseline <= 0` — the `baseline` argument is
  `Option ℚ`, `none` standing for `NaN`;
* `comp = comp_median if comp_median is not None and comp_median > 0 else baseline`;
* the tier ladder on `proj_occ` — a `NaN` occupancy (`none` here) fails
  every `<` comparison and falls through to the final tier;
* `round(float(price), 2)`.
-/
def choose_price (baseline : Option ℚ) (proj_occ : Option ℚ)
    (comp_median : Option ℚ) : ℚ :=
  let b : ℚ :=
    match baseline with
    | none => 100
    | some b0 => if b0 ≤ 0 then 100 else b0
  let comp : ℚ :=
    match comp_median with
    | some c => if 0 < c then c else b
    | none => b
  let price : ℚ :=
    match proj_occ with
    | some o =>
        if o < 0.5 then max (b * 0.90) (comp * 0.95)
        else if o < 0.70 then max (b * 1.00) (comp * 1.00)
        else if o < 0.85 then max (b * 1.08) (comp * 1.05)
        else max (b * 1.15) (comp * 1.10)
    | none => max (b * 1.15) (comp * 1.10)
  round2 price

/-- The effective baseline after the §4.4 guard. -/
def guardedBaseline (baseline : Option ℚ) : ℚ :=
  match baseline with
  | none => 100
  | some b0 => if b0 ≤ 0 then 100 else b0

/-- The effective competitor value after the §4.4 guard, given the
already-guarded baseline. -/
def guardedComp (b : ℚ) (comp_median : Option ℚ) : ℚ :=
  match comp_median with
  | some c => if 0 < c then c else b
  | none => b

/-- The tier table of §4.4 exactly as the spec states it, on the
effective (guarded) values. -/
def tierTableSpec (baseline comp o : ℚ) : ℚ :=
  if o < 0.5 then max (baseline * 0.90) (comp * 0.95)
  else if o < 0.70 then max baseline comp
  else if o < 0.85 then max (baseline * 1.08) (comp * 1.05)
  else max (baseline * 1.15) (comp * 1.10)

/-- A feature row after `ml/model.py` attaches the in-sample prediction
column (`feat_df["pred"]`) and the per-room-type baseline column from the
merge with `compute_baseline`'s output. -/
structure PredRow extends FeatureRow where
  pred : Option ℚ
  baseline : Option ℚ
deriving DecidableEq

/-- The assignment `feat_df["pred"] = forecast_demand(feat_df, feat_cols)` followed by
`feat_df.merge(baselines.rename("baseline").reset_index(), on="room_type", how="left")`.

The merge in the source is many-to-many (the baseline series keeps one
row per reservation row), but `transform('last')` already broadcast one
value per room type, and the orchestrator only ever consumes
`hist.tail(1)` of the merged frame, so the duplication is observationally
irrelevant; the merge is modelled as attaching the per-room-type value to
each feature row. -/
def attachPreds (feats : List FeatureRow) (preds : List (Option ℚ))
    (res : List ReservationRow) : List PredRow :=
  feats.mapIdx (fun i r =>
    { toFeatureRow := r
      pred := preds.getD i none
      baseline := compute_baseline res r.room_type })

/-- The list `sorted(res["room_type"].unique())`. -/
def roomTypes (res : List ReservationRow) : List String :=
  List.insertionSort (· ≤ ·) (res.map (·.room_type)).dedup

/-- The value `pd.to_datetime(res["stay_date"]).max()` (callers guard `res`
non-empty). -/
def lastHistDate (res : List ReservationRow) : ℤ :=
  ((res.map (·.stay_date)).maximum).unbot' 0

/-- The 14-day horizon `pd.date_range(start, start + 13 days)`, starting
the day after the last history date. -/
def horizonDates (res : List ReservationRow) : List ℤ :=
  (List.range 14).map (fun i => lastHistDate res + 1 + Int.ofNat i)

/-- One output row of the Horizon Orchestrator (a row of the `forecasts`
table). -/
structure ForecastRecord where
  stay_date : ℤ
  room_type : String
  demand_forecast : Option ℚ
  competitor_rate : Option ℚ
  recommended_adr : ℚ
deriving DecidableEq

/-- The body of the horizon loop of `ml/model.py` for one `(day, room_type)`
pair: take the latest feature snapshot with `stay_date <= d` for the room
type; if none exists, synthesize the default occupancy blend
`0.4 * (mean occupancy / 100) + 0.6 * (mean roll_occ_7 / 100)` (pandas
`mean` skips nulls; an all-null column gives `NaN`) and the room type's
overall median ADR as baseline (`100.0` only when the whole reservation
frame is empty). -/
def mkFutureRow (res : List ReservationRow) (featP : List PredRow)
    (comp : List CompetitorRow) (d : ℤ) (rt : String) : ForecastRecord :=
  let hist := featP.filter (fun x => x.room_type == rt)
  let cm := compMedianDay comp d rt
  match (hist.filter (fun x => x.stay_date ≤ d)).getLast? with
  | some row =>
      { stay_date := d
        room_type := rt
        demand_forecast := row.pred.map round4
        competitor_rate := cm
        recommended_adr := choose_price row.baseline row.pred cm }
  | none =>
      let lastOcc : ℚ := if hist.isEmpty then 50 else listMean (hist.map (·.occupancy))
      let rollOcc : Option ℚ :=
        if hist.isEmpty then some 50
        else (let vs := hist.filterMap (·.roll_occ_7)
              if vs.isEmpty then none else some (listMean vs))
      let pred : Option ℚ := rollOcc.map (fun ro => 0.4 * (lastOcc / 100) + 0.6 * (ro / 100))
      let baseline : Option ℚ :=
        if res.isEmpty then some 100
        else (let as := adrsOf res rt
              if as.isEmpty then none else some (listMedian as))
      { stay_date := d
        room_type := rt
        demand_forecast := pred.map round4
        competitor_rate := cm
        recommended_adr := choose_price baseline pred cm }

/-- The feature table the pipeline builds:
`build_features(res, None if comp.empty else comp)`. -/
def pipelineFeats (res₀ : List ReservationRow) (comp : List CompetitorRow) :
    List FeatureRow :=
  build_features (read_tables res₀) (if comp.isEmpty then none else some comp)

/-- The feature table with the `pred` and `baseline` columns attached
(`feat_df` after `feat_df["pred"] = ...` and the baseline merge). -/
def pipelinePredRows (res₀ : List ReservationRow) (comp : List CompetitorRow)
    (reg : Option (FeatureRow → ℚ)) : List PredRow :=
  attachPreds (pipelineFeats res₀ comp)
    (forecast_demand reg (pipelineFeats res₀ comp)) (read_tables res₀)

/-- The Horizon Orchestrator: the pure part of `main` in `ml/model.py`
(everything between loading and persistence), producing the `future_rows`
batch: for each of the 14 horizon days, for each room type of the
reservation history (lexicographically sorted), one forecast record. -/
def runHorizon (res₀ : List ReservationRow) (comp : List CompetitorRow)
    (reg : Option (FeatureRow → ℚ)) : List ForecastRecord :=
  (horizonDates (read_tables res₀)).flatMap (fun d =>
    (roomTypes (read_tables res₀)).map (fun rt =>
      mkFutureRow (read_tables res₀) (pipelinePredRows res₀ comp reg) comp d rt))

/-- What the `forecasts` table stores per `(stay_date, room_type)` key. -/
structure StoredForecast where
  demand_forecast : Option ℚ
  competitor_rate : Option ℚ
  recommended_adr : ℚ
deriving DecidableEq

/-- The forecast store, keyed by `(stay_date, room_type)`. -/
def ForecastStore := ℤ × String → Option StoredForecast

/-- The payload columns written for a forecast record. -/
def payloadOf (r : ForecastRecord) : StoredForecast :=
  ⟨r.demand_forecast, r.competitor_rate, r.recommended_adr⟩

/-- One `INSERT ... ON CONFLICT (stay_date, room_type) DO UPDATE`
statement: insert-or-replace at the record's key. -/
def upsertOne (s : ForecastStore) (r : ForecastRecord) : ForecastStore :=
  fun k => if k = (r.stay_date, r.room_type) then some (payloadOf r) else s k

/-- The persistence loop: upsert every record of the batch in order. -/
def upsertBatch (b : List ForecastRecord) (s : ForecastStore) : ForecastStore :=
  b.foldl upsertOne s

/-- The store with no rows. -/
def emptyStore : ForecastStore := fun _ => none

/-- Test for `Except.ok` (normal completion of a run). -/
def exceptOk (e : Except String ForecastStore) : Bool :=
  match e with
  | Except.ok _ => true
  | Except.error _ => false

/-- The function `main` from `ml/model.py` end to end: on empty reservation history it
prints `"[ml] No reservation history found."` and `return`s — a normal
completion with nothing written; otherwise it builds the horizon batch
and upserts it.  `Except.error` is reserved for propagated failures, and
no statement of `main` raises one (database exceptions belong to the
external engine collaborator). -/
def runPipeline (res : List ReservationRow) (comp : List CompetitorRow)
    (reg : Option (FeatureRow → ℚ)) (store : ForecastStore) :
    Except String ForecastStore :=
  if res.isEmpty then Except.ok store
  else Except.ok (upsertBatch (runHorizon res comp reg) store)

/-- The tier ladder of `choose_price` factored over the guarded values
(proof-side restatement of the body of `choose_price`). -/
def tierLadder (b comp : ℚ) (o : Option ℚ) : ℚ :=
  match o with
  | some o' =>
      if o' < 0.5 then max (b * 0.90) (comp * 0.95)
      else if o' < 0.70 then max (b * 1.00) (comp * 1.00)
      else if o' < 0.85 then max (b * 1.08) (comp * 1.05)
      else max (b * 1.15) (comp * 1.10)
  | none => max (b * 1.15) (comp * 1.10)

/-- Concrete feature rows (room type "King", two samples) used to witness
the fallback-path properties at a concrete input. -/
def c4rows : List FeatureRow :=
  [{ stay_date := 0, room_type := "King", occupancy := 50, adr := 150, dow := 0,
     lag_occ_1 := none, roll_occ_7 := none, is_weekend := false, comp_median := none,
     target := 1/2 },
   { stay_date := 1, room_type := "King", occupancy := 60, adr := 150, dow := 1,
     lag_occ_1 := some 50, roll_occ_7 := some 55, is_weekend := false, comp_median := none,
     target := 3/5 }]

/-- Closed form (spec side) of the fallback value at group position `j`
for a group with at least 2 samples: "trailing 7-sample mean, minimum 2
samples, leading undefined values back-filled" — position 0 is back-filled
with the first defined rolling mean, the mean of the first two samples;
every later position carries its own trailing window mean. -/
def trailingMeanSpec (g : List ℚ) (j : ℕ) : ℚ :=
  if j = 0 then listMean (g.take 2) else listMean (takeLast 7 (g.take (j + 1)))

theorem choose_price_eq_ladder (bl o cm : Option ℚ) :
    choose_price bl o cm =
      round2 (tierLadder (guardedBaseline bl) (guardedComp (guardedBaseline bl) cm) o) := rfl

theorem guardedBaseline_pos (bl : Option ℚ) : 0 < guardedBaseline bl := by
  unfold guardedBaseline
  cases bl with
  | none => norm_num
  | some b0 =>
      by_cases h : b0 ≤ 0
      · simp [h]
      · simp [h]; linarith

theorem guardedComp_pos (b : ℚ) (hb : 0 < b) (cm : Option ℚ) : 0 < guardedComp b cm := by
  unfold guardedComp
  cases cm with
  | none => exact hb
  | some c =>
      by_cases h : 0 < c
      · simp [h]
      · simp [h]; exact hb

theorem floor_le_roundHalfEven (q : ℚ) : ⌊q⌋ ≤ roundHalfEven q := by
  unfold roundHalfEven
  split_ifs <;> omega

theorem roundHalfEven_le_floor_add_one (q : ℚ) : roundHalfEven q ≤ ⌊q⌋ + 1 := by
  unfold roundHalfEven
  split_ifs <;> omega

theorem roundHalfEven_mono {x y : ℚ} (h : x ≤ y) : roundHalfEven x ≤ roundHalfEven y := by
  rcases eq_or_lt_of_le (Int.floor_le_floor h) with hf | hf
  · have hfr : Int.fract x ≤ Int.fract y := by
      unfold Int.fract
      rw [hf]
      exact sub_le_sub_right h _
    unfold roundHalfEven
    rw [hf]
    split_ifs <;> first | omega | linarith
  · calc roundHalfEven x ≤ ⌊x⌋ + 1 := roundHalfEven_le_floor_add_one x
      _ ≤ ⌊y⌋ := by omega
      _ ≤ roundHalfEven y := floor_le_roundHalfEven y

theorem roundHalfEven_intCast (n : ℤ) : roundHalfEven (n : ℚ) = n := by
  unfold roundHalfEven
  rw [Int.fract_intCast, Int.floor_intCast]
  norm_num

theorem round2_mono {x y : ℚ} (h : x ≤ y) : round2 x ≤ round2 y := by
  unfold round2
  have := roundHalfEven_mono (mul_le_mul_of_nonneg_right h (by norm_num : (0:ℚ) ≤ 100))
  have hc : ((roundHalfEven (x * 100) : ℤ) : ℚ) ≤ ((roundHalfEven (y * 100) : ℤ) : ℚ) := by
    exact_mod_cast this
  linarith

theorem round4_mono {x y : ℚ} (h : x ≤ y) : round4 x ≤ round4 y := by
  unfold round4
  have := roundHalfEven_mono (mul_le_mul_of_nonneg_right h (by norm_num : (0:ℚ) ≤ 10000))
  have hc : ((roundHalfEven (x * 10000) : ℤ) : ℚ) ≤ ((roundHalfEven (y * 10000) : ℤ) : ℚ) := by
    exact_mod_cast this
  linarith

theorem round4_mem_unit {q : ℚ} (h0 : 0 ≤ q) (h1 : q ≤ 1) :
    0 ≤ round4 q ∧ round4 q ≤ 1 := by
  have e0 : round4 0 = 0 := by
    unfold round4
    have : ((0:ℚ) * 10000) = ((0 : ℤ) : ℚ) := by norm_num
    rw [this, roundHalfEven_intCast]
    norm_num
  have e1 : round4 1 = 1 := by
    unfold round4
    have : ((1:ℚ) * 10000) = ((10000 : ℤ) : ℚ) := by norm_num
    rw [this, roundHalfEven_intCast]
    norm_num
  constructor
  · rw [← e0]; exact round4_mono h0
  · rw [← e1]; exact round4_mono h1

/-- C1: for positive numeric baselines, `choose_price` returns the §4.4
tier table's value on the guarded effective baseline and competitor
values, rounded to 2 decimals; in particular
`choose_price(100.0, 0.30, 120.0) = 114.0`,
`choose_price(150.0, 0.60, None) = 150.0` and
`choose_price(150.0, 0.90, None) = 172.50`. -/
theorem choose_price_matches_tier_table :
    (∀ (b occ : ℚ) (cm : Option ℚ), 0 < b →
      choose_price (some b) (some occ) cm =
        round2 (tierTableSpec b (guardedComp b cm) occ))
    ∧ choose_price (some 100) (some 0.30) (some 120) = 114
    ∧ choose_price (some 150) (some 0.60) none = 150
    ∧ choose_price (some 150) (some 0.90) none = 172.5 := by
  refine ⟨?_, ?_, ?_, ?_⟩
  · intro b occ cm hb
    rw [choose_price_eq_ladder]
    have hgb : guardedBaseline (some b) = b := by
      simp [guardedBaseline, hb.not_le]
    rw [hgb]
    simp only [tierLadder, tierTableSpec]
    split_ifs <;> norm_num
  · norm_num [choose_price, round2, roundHalfEven, Int.fract]
  · norm_num [choose_price, round2, roundHalfEven, Int.fract]
  · norm_num [choose_price, round2, roundHalfEven, Int.fract]

/-- Witness for C1: the first conjunct applied at
`(baseline, occupancy, competitor) = (100, 3/10, 120)`. -/
theorem choose_price_matches_tier_table_witness :
    choose_price (some 100) (some (3/10)) (some 120) =
      round2 (tierTableSpec 100 (guardedComp 100 (some 120)) (3/10)) :=
  choose_price_matches_tier_table.1 100 (3/10) (some 120) (by norm_num)

theorem tierLadder_mono (b c : ℚ) (hb : 0 < b) (hc : 0 < c) {x y : ℚ} (hxy : x ≤ y) :
    tierLadder b c (some x) ≤ tierLadder b c (some y) := by
  simp only [tierLadder]
  split_ifs <;>
    first
      | linarith
      | exact le_refl _
      | exact max_le_max (by nlinarith) (by nlinarith)

/-- C2: with baseline and competitor median fixed, `choose_price` is
monotonically non-decreasing in the projected occupancy. -/
theorem choose_price_monotone_occupancy (bl cm : Option ℚ) (a b : ℚ) (hab : a ≤ b) :
    choose_price bl (some a) cm ≤ choose_price bl (some b) cm := by
  rw [choose_price_eq_ladder, choose_price_eq_ladder]
  exact round2_mono
    (tierLadder_mono _ _ (guardedBaseline_pos bl)
      (guardedComp_pos _ (guardedBaseline_pos bl) cm) hab)

/-- Witness for C2 at `(baseline, comp) = (100, 120)`, occupancies
`0.30 ≤ 0.90`. -/
theorem choose_price_monotone_occupancy_witness :
    choose_price (some 100) (some 0.30) (some 120) ≤
      choose_price (some 100) (some 0.90) (some 120) :=
  choose_price_monotone_occupancy (some 100) (some 120) 0.30 0.90 (by norm_num)

/-- C3: the input guards of `choose_price` — a `NaN` or non-positive
baseline behaves as baseline `100.0`, and an absent or non-positive
competitor median behaves as the guarded baseline. -/
theorem choose_price_guards :
    (∀ (o cm : Option ℚ), choose_price none o cm = choose_price (some 100) o cm)
    ∧ (∀ (b : ℚ) (o cm : Option ℚ), b ≤ 0 →
        choose_price (some b) o cm = choose_price (some 100) o cm)
    ∧ (∀ (bl o : Option ℚ),
        choose_price bl o none = choose_price bl o (some (guardedBaseline bl)))
    ∧ (∀ (bl o : Option ℚ) (c : ℚ), c ≤ 0 →
        choose_price bl o (some c) = choose_price bl o (some (guardedBaseline bl))) := by
  have hgb100 : guardedBaseline none = guardedBaseline (some 100) := by
    simp [guardedBaseline]
  refine ⟨?_, ?_, ?_, ?_⟩
  · intro o cm
    rw [choose_price_eq_ladder, choose_price_eq_ladder, hgb100]
  · intro b o cm hb
    rw [choose_price_eq_ladder, choose_price_eq_ladder]
    have : guardedBaseline (some b) = guardedBaseline (some 100) := by
      simp [guardedBaseline, hb]
    rw [this]
  · intro bl o
    rw [choose_price_eq_ladder, choose_price_eq_ladder]
    have : guardedComp (guardedBaseline bl) none =
        guardedComp (guardedBaseline bl) (some (guardedBaseline bl)) := by
      simp [guardedComp, guardedBaseline_pos bl]
    rw [this]
  · intro bl o c hc
    rw [choose_price_eq_ladder, choose_price_eq_ladder]
    have : guardedComp (guardedBaseline bl) (some c) =
        guardedComp (guardedBaseline bl) (some (guardedBaseline bl)) := by
      simp [guardedComp, not_lt.mpr hc, guardedBaseline_pos bl]
    rw [this]

/-- Witness for C3: the second and fourth guard equations applied at
concrete non-positive inputs. -/
theorem choose_price_guards_witness :
    choose_price (some (-5)) (some 0.6) (some (-3)) =
        choose_price (some 100) (some 0.6) (some (-3))
    ∧ choose_price (some 100) (some 0.6) (some (-3)) =
        choose_price (some 100) (some 0.6) (some (guardedBaseline (some 100))) :=
  ⟨choose_price_guards.2.1 (-5) (some 0.6) (some (-3)) (by norm_num),
   choose_price_guards.2.2.2 (some 100) (some 0.6) (-3) (by norm_num)⟩

theorem lastNonNone_rollingMedians (l : List ℚ) :
    lastNonNone (rollingMedians14 l) =
      if 3 ≤ l.length then some (listMedian (takeLast 14 l)) else none := by
  unfold lastNonNone rollingMedians14
  by_cases h : 3 ≤ l.length
  · rw [if_pos h]
    obtain ⟨m, hm⟩ : ∃ m, l.length = m + 1 := ⟨l.length - 1, by omega⟩
    have hg : (if 3 ≤ min (m + 1) 14 then
        some (listMedian (takeLast 14 (l.take (m + 1)))) else none) =
        some (listMedian (takeLast 14 l)) := by
      rw [if_pos (by omega), ← hm, List.take_length]
    rw [hm, List.range_succ, List.map_append, List.filterMap_append]
    simp only [List.map_cons, List.map_nil]
    rw [hg]
    have h2 : List.filterMap id [some (listMedian (takeLast 14 l))] =
        [listMedian (takeLast 14 l)] := rfl
    rw [h2, List.getLast?_concat]
  · rw [if_neg h]
    have hall : ∀ a ∈ (List.range l.length).map (fun i =>
        if 3 ≤ min (i + 1) 14 then some (listMedian (takeLast 14 (l.take (i + 1)))) else none),
        id a = none := by
      intro a ha
      obtain ⟨i, hi, rfl⟩ := List.mem_map.mp ha
      rw [List.mem_range] at hi
      rw [if_neg (by omega)]
      rfl
    rw [List.filterMap_eq_nil_iff.mpr hall]
    rfl

/-- C6 (code bug): for a room type with fewer than 3 history samples,
`compute_baseline` yields an undefined value (`NaN`) instead of the room
type's overall median ADR that its own comment (and §4.3) promises: the
`fillna(fallback)` aligns the `(room_type, row)`-MultiIndexed rolling
result against the flat-indexed `fallback` series, so no label matches
and nothing is filled.  Two "King" rows with constant ADR 150 give `none`
where the spec's baseline is 150; with 3 or more samples the trailing-14
median path works as claimed. -/
theorem compute_baseline_fillna_dead :
    compute_baseline
        [⟨0, "King", 5, 10, 150⟩, ⟨1, "King", 6, 10, 150⟩] "King" = none
    ∧ baselineSpec
        [⟨0, "King", 5, 10, 150⟩, ⟨1, "King", 6, 10, 150⟩] "King" = some 150
    ∧ compute_baseline
        [⟨0, "King", 5, 10, 150⟩, ⟨1, "King", 6, 10, 150⟩, ⟨2, "King", 7, 10, 150⟩]
        "King" =
      baselineSpec
        [⟨0, "King", 5, 10, 150⟩, ⟨1, "King", 6, 10, 150⟩, ⟨2, "King", 7, 10, 150⟩]
        "King" := by
  have hadrs : adrsOf [⟨0, "King", 5, 10, 150⟩, ⟨1, "King", 6, 10, 150⟩] "King"
      = [150, 150] := rfl
  have hadrs3 : adrsOf
      [⟨0, "King", 5, 10, 150⟩, ⟨1, "King", 6, 10, 150⟩, ⟨2, "King", 7, 10, 150⟩] "King"
      = [150, 150, 150] := rfl
  refine ⟨?_, ?_, ?_⟩
  · unfold compute_baseline
    rw [hadrs, lastNonNone_rollingMedians]
    norm_num
  · unfold baselineSpec
    rw [hadrs]
    norm_num [listMedian, List.insertionSort, List.orderedInsert]
  · unfold compute_baseline baselineSpec
    rw [hadrs3, lastNonNone_rollingMedians]
    norm_num [takeLast]

theorem length_rollingMeans7 (g : List ℚ) : (rollingMeans7 g).length = g.length := by
  unfold rollingMeans7
  rw [List.length_map, List.length_range]

theorem length_bfill (l : List (Option ℚ)) : (bfill l).length = l.length := by
  unfold bfill
  rw [List.length_mapIdx]

theorem rollingMeans7_getElem (g : List ℚ) (j : ℕ) (hj : j < (rollingMeans7 g).length) :
    (rollingMeans7 g).get ⟨j, hj⟩ =
      if 2 ≤ min (j + 1) 7 then some (listMean (takeLast 7 (g.take (j + 1)))) else none := by
  unfold rollingMeans7 at hj ⊢
  rw [List.get_eq_getElem, List.getElem_map, List.getElem_range]

theorem bfill_getD (l : List (Option ℚ)) (j : ℕ) (hj : j < l.length) :
    (bfill l).getD j none = (l.drop j).findSome? id := by
  unfold bfill
  rw [List.getD_eq_getElem _ none (by rw [List.length_mapIdx]; exact hj), List.getElem_mapIdx]

theorem clipQ_mem_unit (q : ℚ) : 0 ≤ clipQ 0 1 q ∧ clipQ 0 1 q ≤ 1 := by
  unfold clipQ
  exact ⟨le_max_left _ _, max_le (by norm_num) (min_le_left _ _)⟩

theorem takeLast_of_le {l : List α} {n : ℕ} (h : l.length ≤ n) : takeLast n l = l := by
  unfold takeLast
  rw [Nat.sub_eq_zero_of_le h, List.drop_zero]

theorem fallbackGroupVals_getD (g : List ℚ) (j : ℕ) (hj : j < g.length)
    (h2 : 2 ≤ g.length) :
    (fallbackGroupVals g).getD j none = some (clipQ 0 1 (trailingMeanSpec g j)) := by
  have hjb : j < (bfill (rollingMeans7 g)).length := by
    rw [length_bfill, length_rollingMeans7]; exact hj
  have hmap : (fallbackGroupVals g).getD j none
      = Option.map (clipQ 0 1) ((bfill (rollingMeans7 g)).getD j none) := by
    unfold fallbackGroupVals
    rw [List.getD_eq_getElem _ none (by rw [List.length_map]; exact hjb),
        List.getElem_map, List.getD_eq_getElem _ none hjb]
  rw [hmap, bfill_getD _ _ (by rw [length_rollingMeans7]; exact hj)]
  by_cases hj0 : j = 0
  · subst hj0
    rw [List.drop_zero]
    have hlen1 : 1 < (rollingMeans7 g).length := by rw [length_rollingMeans7]; omega
    have hlen0 : 0 < (rollingMeans7 g).length := by omega
    have hdec : rollingMeans7 g =
        (rollingMeans7 g).get ⟨0, hlen0⟩ ::
          (rollingMeans7 g).get ⟨1, hlen1⟩ :: (rollingMeans7 g).drop 2 := by
      rw [List.get_eq_getElem, List.get_eq_getElem]
      conv_lhs => rw [← List.drop_zero (rollingMeans7 g),
        List.drop_eq_getElem_cons hlen0, List.drop_eq_getElem_cons hlen1]
    rw [hdec, rollingMeans7_getElem, rollingMeans7_getElem,
      if_neg (by omega), if_pos (by omega)]
    have ht : takeLast 7 (g.take (1 + 1)) = g.take 2 := by
      refine takeLast_of_le ?_
      rw [List.length_take]
      omega
    rw [ht]
    have hfs : List.findSome? id
        (none :: some (listMean (g.take 2)) :: (rollingMeans7 g).drop 2) =
        some (listMean (g.take 2)) := rfl
    rw [hfs]
    unfold trailingMeanSpec
    rw [if_pos rfl]
    rfl
  · have hjr : j < (rollingMeans7 g).length := by rw [length_rollingMeans7]; exact hj
    rw [List.drop_eq_getElem_cons hjr]
    have hsome : (rollingMeans7 g).get ⟨j, hjr⟩ =
        some (listMean (takeLast 7 (g.take (j + 1)))) := by
      rw [rollingMeans7_getElem, if_pos (by omega)]
    rw [List.get_eq_getElem] at hsome
    rw [hsome]
    have hfs : List.findSome? id
        (some (listMean (takeLast 7 (g.take (j + 1)))) :: (rollingMeans7 g).drop (j + 1)) =
        some (listMean (takeLast 7 (g.take (j + 1)))) := rfl
    rw [hfs]
    unfold trailingMeanSpec
    rw [if_neg hj0]
    rfl

/-- C4: the fallback path of `forecast_demand` (regression unavailable or
failed) propagates nothing: it yields a prediction list aligned with the
input rows, and every row whose room type has at least 2 samples gets a
defined value equal to the per-room-type trailing 7-sample mean of
`target` (minimum 2 samples, the leading undefined position back-filled),
clamped into `[0, 1]`. -/
theorem forecast_demand_fallback_spec (rows : List FeatureRow) (i : ℕ)
    (hi : i < rows.length)
    (h2 : 2 ≤ (rows.filter (fun x => x.room_type == rows[i].room_type)).length) :
    (forecast_demand none rows).length = rows.length ∧
    ∃ q, (forecast_demand none rows).getD i none = some q
      ∧ 0 ≤ q ∧ q ≤ 1
      ∧ q = clipQ 0 1 (trailingMeanSpec
            ((rows.filter (fun x => x.room_type == rows[i].room_type)).map (fun x => x.target))
            ((rows.take i).filter (fun x => x.room_type == rows[i].room_type)).length) := by
  have hfd : forecast_demand none rows = forecast_fallback rows := rfl
  have hlen : (forecast_demand none rows).length = rows.length := by
    rw [hfd]
    unfold forecast_fallback
    rw [List.length_mapIdx]
  refine ⟨hlen, ?_⟩
  set p : FeatureRow → Bool := fun x => x.room_type == rows[i].room_type with hp
  have hpi : p rows[i] = true := by simp [hp]
  have hsplit : rows.filter p =
      (rows.take i).filter p ++ (rows[i] :: rows.drop (i + 1)).filter p := by
    conv_lhs => rw [← List.take_append_drop i rows]
    rw [List.filter_append, List.drop_eq_getElem_cons hi]
  have hjlt : ((rows.take i).filter p).length < (rows.filter p).length := by
    rw [hsplit, List.length_append, List.filter_cons_of_pos hpi, List.length_cons]
    omega
  have hval : (forecast_demand none rows).getD i none
      = (fallbackGroupVals ((rows.filter p).map (fun x => x.target))).getD
          ((rows.take i).filter p).length none := by
    rw [hfd]
    unfold forecast_fallback
    rw [List.getD_eq_getElem _ none (by rw [List.length_mapIdx]; exact hi),
        List.getElem_mapIdx]
  have hjg : ((rows.take i).filter p).length <
      ((rows.filter p).map (fun x => x.target)).length := by
    rw [List.length_map]; exact hjlt
  have h2g : 2 ≤ ((rows.filter p).map (fun x => x.target)).length := by
    rw [List.length_map]; exact h2
  have hgoal := fallbackGroupVals_getD _ _ hjg h2g
  rw [← hval] at hgoal
  exact ⟨_, hgoal, (clipQ_mem_unit _).1, (clipQ_mem_unit _).2, rfl⟩

/-- Witness for C4: the fallback value of the second "King" row of
`c4rows`. -/
theorem forecast_demand_fallback_spec_witness :
    (forecast_demand none c4rows).getD 1 none
      = some (clipQ 0 1 (trailingMeanSpec
          ((c4rows.filter (fun x => x.room_type == c4rows[1].room_type)).map (fun x => x.target))
          ((c4rows.take 1).filter (fun x => x.room_type == c4rows[1].room_type)).length)) := by
  obtain ⟨q, hq, h0, h1, hqe⟩ :=
    (forecast_demand_fallback_spec c4rows 1 (by decide) (by decide)).2
  rw [hq, hqe]

theorem upsertBatch_lookup (b : List ForecastRecord) (s : ForecastStore) (k : ℤ × String) :
    upsertBatch b s k =
      b.foldl (fun acc r =>
        if k = (r.stay_date, r.room_type) then some (payloadOf r) else acc) (s k) := by
  induction b generalizing s with
  | nil => rfl
  | cons r t ih =>
      show upsertBatch t (upsertOne s r) k = _
      rw [ih]
      rfl

theorem upsertBatch_twice (b : List ForecastRecord) (s : ForecastStore) :
    upsertBatch b (upsertBatch b s) = upsertBatch b s := by
  funext k
  rw [upsertBatch_lookup, upsertBatch_lookup]
  generalize s k = x
  induction b using List.reverseRecOn generalizing x with
  | nil => rfl
  | append_singleton t r ih =>
      simp only [List.foldl_append, List.foldl_cons, List.foldl_nil]
      by_cases hk : k = (r.stay_date, r.room_type)
      · simp only [if_pos hk]
      · simp only [if_neg hk]
        exact ih x

/-- C9: running the Horizon Orchestrator twice on identical inputs and
upserting both (identical, deterministic) batches leaves the forecast
store exactly as a single run does — every write is an insert-or-replace
keyed by `(stay_date, room_type)`. -/
theorem runHorizon_upsert_idempotent (res : List ReservationRow)
    (comp : List CompetitorRow) (reg : Option (FeatureRow → ℚ)) (store : ForecastStore) :
    upsertBatch (runHorizon res comp reg) (upsertBatch (runHorizon res comp reg) store)
      = upsertBatch (runHorizon res comp reg) store :=
  upsertBatch_twice _ _

/-- C5 counterexample: on an empty reservation history `main` does not
propagate any failure — it logs and returns normally, writing nothing, so
the run completes with the store untouched. -/
theorem runPipeline_empty_completes_normally :
    runPipeline [] [] none emptyStore = Except.ok emptyStore ∧
    exceptOk (runPipeline [] [] none emptyStore) = true :=
  ⟨rfl, rfl⟩

/-- C5 amended: an empty reservation history makes the pipeline return
early and normally with the store unchanged (no abort is propagated);
any non-empty history proceeds to the horizon batch and its upsert. -/
theorem runPipeline_empty_graceful :
    (∀ (comp : List CompetitorRow) (reg : Option (FeatureRow → ℚ)) (s : ForecastStore),
      runPipeline [] comp reg s = Except.ok s)
    ∧ (∀ (res : List ReservationRow) (comp : List CompetitorRow)
        (reg : Option (FeatureRow → ℚ)) (s : ForecastStore), res ≠ [] →
      runPipeline res comp reg s = Except.ok (upsertBatch (runHorizon res comp reg) s)) := by
  constructor
  · intro comp reg s
    rfl
  · intro res comp reg s h
    unfold runPipeline
    rw [if_neg (fun hc => h (List.isEmpty_iff.mp hc))]

/-- Witness for C5's amended claim at a one-row history. -/
theorem runPipeline_empty_graceful_witness :
    runPipeline [⟨0, "King", 5, 10, 150⟩] [] none emptyStore =
      Except.ok (upsertBatch (runHorizon [⟨0, "King", 5, 10, 150⟩] [] none) emptyStore) :=
  runPipeline_empty_graceful.2 _ _ _ _ (List.cons_ne_nil _ _)

theorem map_mapIdx {α β γ : Type} (l : List α) (f : ℕ → α → β) (g : β → γ) :
    (l.mapIdx f).map g = l.mapIdx (fun i a => g (f i a)) := by
  apply List.ext_getElem
  · rw [List.length_map, List.length_mapIdx, List.length_mapIdx]
  · intro i h1 h2
    rw [List.getElem_map, List.getElem_mapIdx, List.getElem_mapIdx]

theorem mapIdx_eq_map {α β : Type} (l : List α) (h : α → β) :
    l.mapIdx (fun _ a => h a) = l.map h := by
  apply List.ext_getElem
  · rw [List.length_map, List.length_mapIdx]
  · intro i h1 h2
    rw [List.getElem_map, List.getElem_mapIdx]

theorem exists_getElem_of_mem_mapIdx {α β : Type} {l : List α} {f : ℕ → α → β} {b : β}
    (hb : b ∈ l.mapIdx f) : ∃ i, ∃ hi : i < l.length, b = f i (l.get ⟨i, hi⟩) := by
  obtain ⟨i, hi, hEq⟩ := List.mem_iff_getElem.mp hb
  rw [List.length_mapIdx] at hi
  refine ⟨i, hi, ?_⟩
  rw [← hEq, List.getElem_mapIdx, List.get_eq_getElem]

theorem length_forecast_demand (reg : Option (FeatureRow → ℚ)) (rows : List FeatureRow) :
    (forecast_demand reg rows).length = rows.length := by
  unfold forecast_demand
  cases reg with
  | none =>
      unfold forecast_fallback
      rw [List.length_mapIdx]
  | some f => rw [List.length_map]

theorem length_attachPreds (feats : List FeatureRow) (preds : List (Option ℚ))
    (res : List ReservationRow) : (attachPreds feats preds res).length = feats.length := by
  unfold attachPreds
  rw [List.length_mapIdx]

theorem attachPreds_map_room_type (feats : List FeatureRow) (preds : List (Option ℚ))
    (res : List ReservationRow) :
    (attachPreds feats preds res).map (fun x => x.room_type) =
      feats.map (fun x => x.room_type) := by
  unfold attachPreds
  rw [map_mapIdx, mapIdx_eq_map]

theorem attachPreds_map_stay_date (feats : List FeatureRow) (preds : List (Option ℚ))
    (res : List ReservationRow) :
    (attachPreds feats preds res).map (fun x => x.stay_date) =
      feats.map (fun x => x.stay_date) := by
  unfold attachPreds
  rw [map_mapIdx, mapIdx_eq_map]

theorem build_features_map_room_type (res : List ReservationRow)
    (competitors : Option (List CompetitorRow)) :
    (build_features res competitors).map (fun x => x.room_type) =
      (List.insertionSort featOrder res).map (fun x => x.room_type) := by
  unfold build_features
  rw [map_mapIdx, mapIdx_eq_map]

theorem build_features_map_stay_date (res : List ReservationRow)
    (competitors : Option (List CompetitorRow)) :
    (build_features res competitors).map (fun x => x.stay_date) =
      (List.insertionSort featOrder res).map (fun x => x.stay_date) := by
  unfold build_features
  rw [map_mapIdx, mapIdx_eq_map]

theorem mem_roomTypes {res : List ReservationRow} {rt : String} :
    rt ∈ roomTypes res ↔ rt ∈ res.map (fun x => x.room_type) := by
  unfold roomTypes
  rw [(List.perm_insertionSort _ _).mem_iff, List.mem_dedup]

theorem roomTypes_nodup (res : List ReservationRow) : (roomTypes res).Nodup := by
  unfold roomTypes
  exact ((List.perm_insertionSort _ _).nodup_iff).mpr (List.nodup_dedup _)

theorem horizonDates_nodup (res : List ReservationRow) : (horizonDates res).Nodup := by
  unfold horizonDates
  refine List.Nodup.map ?_ (List.nodup_range 14)
  intro a b hab
  have hab2 : lastHistDate res + 1 + Int.ofNat a = lastHistDate res + 1 + Int.ofNat b := hab
  exact Int.ofNat_inj.mp (add_left_cancel hab2)

theorem horizonDates_length (res : List ReservationRow) : (horizonDates res).length = 14 := by
  unfold horizonDates
  rw [List.length_map, List.length_range]

theorem lt_of_mem_horizonDates {res : List ReservationRow} {d : ℤ}
    (hd : d ∈ horizonDates res) : lastHistDate res < d := by
  unfold horizonDates at hd
  obtain ⟨i, _, hEq⟩ := List.mem_map.mp hd
  have hEq2 : lastHistDate res + 1 + Int.ofNat i = d := hEq
  have h0 : (0 : ℤ) ≤ Int.ofNat i := Int.ofNat_nonneg i
  omega

theorem le_lastHistDate {res : List ReservationRow} {a : ℤ}
    (ha : a ∈ res.map (fun x => x.stay_date)) : a ≤ lastHistDate res := by
  unfold lastHistDate
  cases h : (res.map (fun x => x.stay_date)).maximum with
  | bot =>
      rw [List.maximum_eq_bot.mp h] at ha
      exact absurd ha (List.not_mem_nil a)
  | coe m =>
      have := List.le_maximum_of_mem ha h
      simpa using this

theorem mkFutureRow_stay_date (res : List ReservationRow) (featP : List PredRow)
    (comp : List CompetitorRow) (d : ℤ) (rt : String) :
    (mkFutureRow res featP comp d rt).stay_date = d := by
  simp only [mkFutureRow]
  cases (List.filter (fun x => decide (x.stay_date ≤ d))
      (List.filter (fun x => x.room_type == rt) featP)).getLast? <;> rfl

theorem mkFutureRow_room_type (res : List ReservationRow) (featP : List PredRow)
    (comp : List CompetitorRow) (d : ℤ) (rt : String) :
    (mkFutureRow res featP comp d rt).room_type = rt := by
  simp only [mkFutureRow]
  cases (List.filter (fun x => decide (x.stay_date ≤ d))
      (List.filter (fun x => x.room_type == rt) featP)).getLast? <;> rfl

theorem mkFutureRow_found (res : List ReservationRow) (featP : List PredRow)
    (comp : List CompetitorRow) (d : ℤ) (rt : String)
    (hne : featP.filter (fun x => x.room_type == rt) ≠ [])
    (hdates : ∀ x ∈ featP.filter (fun x => x.room_type == rt), x.stay_date ≤ d) :
    ∃ row, (featP.filter (fun x => x.room_type == rt)).getLast? = some row ∧
      mkFutureRow res featP comp d rt =
        { stay_date := d
          room_type := rt
          demand_forecast := row.pred.map round4
          competitor_rate := compMedianDay comp d rt
          recommended_adr := choose_price row.baseline row.pred (compMedianDay comp d rt) } := by
  have hfeq : (featP.filter (fun x => x.room_type == rt)).filter
      (fun x => decide (x.stay_date ≤ d)) = featP.filter (fun x => x.room_type == rt) := by
    apply List.filter_eq_self.mpr
    intro a ha
    exact decide_eq_true (hdates a ha)
  obtain ⟨row, hrow⟩ : ∃ row,
      (featP.filter (fun x => x.room_type == rt)).getLast? = some row := by
    cases hl : (featP.filter (fun x => x.room_type == rt)).getLast? with
    | none => exact absurd (List.getLast?_eq_none_iff.mp hl) hne
    | some r => exact ⟨r, rfl⟩
  refine ⟨row, hrow, ?_⟩
  simp only [mkFutureRow]
  rw [hfeq, hrow]

theorem pipelinePredRows_map_room_type (res₀ : List ReservationRow)
    (comp : List CompetitorRow) (reg : Option (FeatureRow → ℚ)) :
    (pipelinePredRows res₀ comp reg).map (fun x => x.room_type)
      = (List.insertionSort featOrder (read_tables res₀)).map (fun x => x.room_type) := by
  unfold pipelinePredRows pipelineFeats
  rw [attachPreds_map_room_type, build_features_map_room_type]

theorem pipelinePredRows_map_stay_date (res₀ : List ReservationRow)
    (comp : List CompetitorRow) (reg : Option (FeatureRow → ℚ)) :
    (pipelinePredRows res₀ comp reg).map (fun x => x.stay_date)
      = (List.insertionSort featOrder (read_tables res₀)).map (fun x => x.stay_date) := by
  unfold pipelinePredRows pipelineFeats
  rw [attachPreds_map_stay_date, build_features_map_stay_date]

theorem pipelinePredRows_dates_le (res₀ : List ReservationRow)
    (comp : List CompetitorRow) (reg : Option (FeatureRow → ℚ)) :
    ∀ x ∈ pipelinePredRows res₀ comp reg,
      x.stay_date ≤ lastHistDate (read_tables res₀) := by
  intro x hx
  apply le_lastHistDate
  have h1 : x.stay_date ∈ (pipelinePredRows res₀ comp reg).map (fun y => y.stay_date) :=
    List.mem_map_of_mem _ hx
  rw [pipelinePredRows_map_stay_date] at h1
  have hperm := (List.perm_insertionSort featOrder (read_tables res₀)).map
    (fun y : ReservationRow => y.stay_date)
  exact hperm.mem_iff.mp h1

theorem pipelineGroup_ne_nil (res₀ : List ReservationRow) (comp : List CompetitorRow)
    (reg : Option (FeatureRow → ℚ)) (rt : String)
    (hrt : rt ∈ roomTypes (read_tables res₀)) :
    (pipelinePredRows res₀ comp reg).filter (fun x => x.room_type == rt) ≠ [] := by
  rw [mem_roomTypes] at hrt
  have hperm := (List.perm_insertionSort featOrder (read_tables res₀)).map
    (fun y : ReservationRow => y.room_type)
  have h1 : rt ∈ (List.insertionSort featOrder (read_tables res₀)).map
      (fun y => y.room_type) := hperm.mem_iff.mpr hrt
  rw [← pipelinePredRows_map_room_type res₀ comp reg] at h1
  obtain ⟨x, hx, hxeq⟩ := List.mem_map.mp h1
  have hxeq2 : x.room_type = rt := hxeq
  intro hnil
  have hmem : x ∈ (pipelinePredRows res₀ comp reg).filter (fun y => y.room_type == rt) :=
    List.mem_filter.mpr ⟨hx, by simp [hxeq2]⟩
  rw [hnil] at hmem
  exact absurd hmem (List.not_mem_nil x)

theorem runHorizon_record_eq (res₀ : List ReservationRow) (comp : List CompetitorRow)
    (reg : Option (FeatureRow → ℚ)) {d : ℤ} {rt : String}
    (hd : d ∈ horizonDates (read_tables res₀))
    (hrt : rt ∈ roomTypes (read_tables res₀)) :
    ∃ row, ((pipelinePredRows res₀ comp reg).filter
        (fun x => x.room_type == rt)).getLast? = some row ∧
      mkFutureRow (read_tables res₀) (pipelinePredRows res₀ comp reg) comp d rt =
        { stay_date := d
          room_type := rt
          demand_forecast := row.pred.map round4
          competitor_rate := compMedianDay comp d rt
          recommended_adr := choose_price row.baseline row.pred (compMedianDay comp d rt) } := by
  apply mkFutureRow_found
  · exact pipelineGroup_ne_nil res₀ comp reg rt hrt
  · intro x hx
    have h1 := pipelinePredRows_dates_le res₀ comp reg x (List.mem_of_mem_filter hx)
    exact le_of_lt (lt_of_le_of_lt h1 (lt_of_mem_horizonDates hd))

theorem mem_runHorizon (res₀ : List ReservationRow) (comp : List CompetitorRow)
    (reg : Option (FeatureRow → ℚ)) {d : ℤ} {rt : String}
    (hd : d ∈ horizonDates (read_tables res₀))
    (hrt : rt ∈ roomTypes (read_tables res₀)) :
    mkFutureRow (read_tables res₀) (pipelinePredRows res₀ comp reg) comp d rt ∈
      runHorizon res₀ comp reg := by
  unfold runHorizon
  exact List.mem_flatMap.mpr ⟨d, hd, List.mem_map_of_mem _ hrt⟩

theorem runHorizon_mem_inv (res₀ : List ReservationRow) (comp : List CompetitorRow)
    (reg : Option (FeatureRow → ℚ)) {rec : ForecastRecord}
    (hrec : rec ∈ runHorizon res₀ comp reg) :
    ∃ d ∈ horizonDates (read_tables res₀), ∃ rt ∈ roomTypes (read_tables res₀),
      rec = mkFutureRow (read_tables res₀) (pipelinePredRows res₀ comp reg) comp d rt := by
  unfold runHorizon at hrec
  obtain ⟨d, hd, hmem⟩ := List.mem_flatMap.mp hrec
  obtain ⟨rt, hrt, hEq⟩ := List.mem_map.mp hmem
  exact ⟨d, hd, rt, hrt, hEq.symm⟩

theorem pipelinePredRows_pred_mem (res₀ : List ReservationRow) (comp : List CompetitorRow)
    (reg : Option (FeatureRow → ℚ)) {row : PredRow}
    (hrow : row ∈ pipelinePredRows res₀ comp reg) :
    ∃ i, ∃ hi : i < (pipelineFeats res₀ comp).length,
      row.toFeatureRow = (pipelineFeats res₀ comp).get ⟨i, hi⟩ ∧
      row.pred = (forecast_demand reg (pipelineFeats res₀ comp)).getD i none := by
  unfold pipelinePredRows attachPreds at hrow
  obtain ⟨i, hi, hEq⟩ := exists_getElem_of_mem_mapIdx hrow
  exact ⟨i, hi, by rw [hEq], by rw [hEq]⟩

theorem count_room_type_feats (res₀ : List ReservationRow) (comp : List CompetitorRow)
    (rt : String) :
    ((pipelineFeats res₀ comp).filter (fun x => x.room_type == rt)).length =
      ((read_tables res₀).filter (fun r => r.room_type == rt)).length := by
  rw [← List.countP_eq_length_filter, ← List.countP_eq_length_filter]
  have h1 : List.countP (fun x => x.room_type == rt) (pipelineFeats res₀ comp) =
      List.countP (fun s => s == rt)
        ((pipelineFeats res₀ comp).map (fun x => x.room_type)) := by
    rw [List.countP_map]
    rfl
  have h2 : List.countP (fun r => r.room_type == rt) (read_tables res₀) =
      List.countP (fun s => s == rt)
        ((read_tables res₀).map (fun x => x.room_type)) := by
    rw [List.countP_map]
    rfl
  rw [h1, h2]
  unfold pipelineFeats
  rw [build_features_map_room_type]
  exact ((List.perm_insertionSort featOrder (read_tables res₀)).map
    (fun y : ReservationRow => y.room_type)).countP_eq _

theorem pred_bounds_of_mem (res₀ : List ReservationRow) (comp : List CompetitorRow)
    (reg : Option (FeatureRow → ℚ)) {row : PredRow}
    (hrow : row ∈ pipelinePredRows res₀ comp reg)
    (hcond : reg.isSome = true ∨
      2 ≤ ((read_tables res₀).filter (fun r => r.room_type == row.room_type)).length) :
    ∃ q, row.pred = some q ∧ 0 ≤ q ∧ q ≤ 1 := by
  obtain ⟨i, hi, hfeat, hpred⟩ := pipelinePredRows_pred_mem res₀ comp reg hrow
  cases reg with
  | some f =>
      have hmapval : (forecast_demand (some f) (pipelineFeats res₀ comp)).getD i none =
          some (clipQ 0 1 (f ((pipelineFeats res₀ comp).get ⟨i, hi⟩))) := by
        show ((pipelineFeats res₀ comp).map
            (fun r => some (clipQ 0 1 (f r)))).getD i none = _
        rw [List.getD_eq_getElem _ none (by rw [List.length_map]; exact hi),
          List.getElem_map, List.get_eq_getElem]
      exact ⟨clipQ 0 1 (f ((pipelineFeats res₀ comp).get ⟨i, hi⟩)),
        by rw [hpred, hmapval], (clipQ_mem_unit _).1, (clipQ_mem_unit _).2⟩
  | none =>
      have h2 : 2 ≤ ((read_tables res₀).filter
          (fun r => r.room_type == row.room_type)).length := by
        rcases hcond with hs | h2
        · exact absurd hs (by simp)
        · exact h2
      have hrt : (pipelineFeats res₀ comp)[i].room_type = row.room_type := by
        have h3 : row.toFeatureRow.room_type =
            ((pipelineFeats res₀ comp).get ⟨i, hi⟩).room_type := by rw [hfeat]
        exact h3.symm
      have h2f : 2 ≤ ((pipelineFeats res₀ comp).filter
          (fun x => x.room_type == (pipelineFeats res₀ comp)[i].room_type)).length := by
        rw [hrt, count_room_type_feats]
        exact h2
      obtain ⟨-, q, hq, h0, h1, -⟩ :=
        forecast_demand_fallback_spec (pipelineFeats res₀ comp) i hi h2f
      exact ⟨q, by rw [hpred]; exact hq, h0, h1⟩

theorem runHorizon_flatMap_length (R : List ReservationRow) (featP : List PredRow)
    (comp : List CompetitorRow) (L : List ℤ) :
    (L.flatMap (fun d => (roomTypes R).map
        (fun rt => mkFutureRow R featP comp d rt))).length =
      L.length * (roomTypes R).length := by
  induction L with
  | nil => simp
  | cons d t ih =>
      rw [List.flatMap_cons, List.length_append, List.length_map, ih, List.length_cons]
      ring

theorem runHorizon_keys (R : List ReservationRow) (featP : List PredRow)
    (comp : List CompetitorRow) (L : List ℤ) :
    (L.flatMap (fun d => (roomTypes R).map
        (fun rt => mkFutureRow R featP comp d rt))).map
        (fun r => (r.stay_date, r.room_type)) =
      L.flatMap (fun d => (roomTypes R).map (fun rt => (d, rt))) := by
  induction L with
  | nil => rfl
  | cons d t ih =>
      rw [List.flatMap_cons, List.flatMap_cons, List.map_append, ih, List.map_map]
      congr 1
      apply List.map_congr_left
      intro rt _
      show ((mkFutureRow R featP comp d rt).stay_date,
        (mkFutureRow R featP comp d rt).room_type) = (d, rt)
      rw [mkFutureRow_stay_date, mkFutureRow_room_type]

/-- C7 (amended): for every non-empty reservation history the Horizon
Orchestrator emits exactly one record per `(date, room type)` pair over
the 14 consecutive horizon dates and the room types of the history
(`14 × #room-types` records, with pairwise-distinct keys and one record
for each pair); a record's `demand_forecast` is a defined value in
`[0, 1]` whenever the regression path is available, and under the
fallback whenever its room type has at least 2 history rows.  (With the
fallback active, a room type with exactly one history row instead gets an
undefined `NaN` forecast — the correction to the claim.) -/
theorem runHorizon_shape (res₀ : List ReservationRow) (comp : List CompetitorRow)
    (reg : Option (FeatureRow → ℚ)) (_hres : res₀ ≠ []) :
    (runHorizon res₀ comp reg).length = 14 * (roomTypes (read_tables res₀)).length
    ∧ ((runHorizon res₀ comp reg).map (fun r => (r.stay_date, r.room_type))).Nodup
    ∧ (∀ d ∈ horizonDates (read_tables res₀), ∀ rt ∈ roomTypes (read_tables res₀),
        ∃ rec ∈ runHorizon res₀ comp reg, rec.stay_date = d ∧ rec.room_type = rt)
    ∧ (∀ rec ∈ runHorizon res₀ comp reg,
        rec.stay_date ∈ horizonDates (read_tables res₀) ∧
        rec.room_type ∈ roomTypes (read_tables res₀))
    ∧ (∀ rec ∈ runHorizon res₀ comp reg,
        (reg.isSome = true ∨
          2 ≤ ((read_tables res₀).filter (fun r => r.room_type == rec.room_type)).length) →
        ∃ q, rec.demand_forecast = some q ∧ 0 ≤ q ∧ q ≤ 1) := by
  refine ⟨?_, ?_, ?_, ?_, ?_⟩
  · show (List.flatMap _ _).length = _
    rw [runHorizon_flatMap_length, horizonDates_length]
  · show ((List.flatMap _ _).map _).Nodup
    rw [runHorizon_keys]
    exact List.Nodup.product (horizonDates_nodup _) (roomTypes_nodup _)
  · intro d hd rt hrt
    exact ⟨mkFutureRow (read_tables res₀) (pipelinePredRows res₀ comp reg) comp d rt,
      mem_runHorizon res₀ comp reg hd hrt,
      mkFutureRow_stay_date _ _ _ _ _, mkFutureRow_room_type _ _ _ _ _⟩
  · intro rec hrec
    obtain ⟨d, hd, rt, hrt, hEq⟩ := runHorizon_mem_inv res₀ comp reg hrec
    subst hEq
    rw [mkFutureRow_stay_date, mkFutureRow_room_type]
    exact ⟨hd, hrt⟩
  · intro rec hrec hcond
    obtain ⟨d, hd, rt, hrt, hEq⟩ := runHorizon_mem_inv res₀ comp reg hrec
    obtain ⟨row, hrow, hrec_eq⟩ := runHorizon_record_eq res₀ comp reg hd hrt
    have hrowmem : row ∈ pipelinePredRows res₀ comp reg :=
      List.mem_of_mem_filter (List.mem_of_mem_getLast? hrow)
    have hrowrt : row.room_type = rt := by
      have := List.of_mem_filter (List.mem_of_mem_getLast? hrow)
      exact beq_iff_eq.mp this
    have hrt_rec : rec.room_type = rt := by
      rw [hEq, mkFutureRow_room_type]
    have hcond2 : reg.isSome = true ∨
        2 ≤ ((read_tables res₀).filter
          (fun r => r.room_type == row.room_type)).length := by
      rw [hrowrt, ← hrt_rec]
      exact hcond
    obtain ⟨q, hq, h0, h1⟩ := pred_bounds_of_mem res₀ comp reg hrowmem hcond2
    refine ⟨round4 q, ?_, (round4_mem_unit h0 h1).1, (round4_mem_unit h0 h1).2⟩
    rw [hEq, hrec_eq]
    show row.pred.map round4 = some (round4 q)
    rw [hq]
    rfl

/-- C7 counterexample: a non-empty history whose single room type has
exactly one row, run through the fallback path, yields records whose
`demand_forecast` is undefined (`NaN`, modelled `none`) — not a value in
`[0, 1]`: the rolling mean needs 2 samples and back-fill finds nothing. -/
theorem runHorizon_nan_demand_forecast :
    ((runHorizon [⟨0, "King", 5, 10, 150⟩] [] none).head?.map
        (fun r => r.demand_forecast)) = some none
    ∧ (runHorizon [⟨0, "King", 5, 10, 150⟩] [] none).length = 14 :=
  ⟨rfl, by decide⟩

/-- Witness for C7's amended claim: the record-count identity at a
concrete two-row history. -/
theorem runHorizon_shape_witness :
    (runHorizon [⟨0, "King", 5, 10, 150⟩, ⟨1, "King", 6, 10, 150⟩] [] none).length =
      14 * (roomTypes (read_tables
        [⟨0, "King", 5, 10, 150⟩, ⟨1, "King", 6, 10, 150⟩])).length :=
  (runHorizon_shape _ _ _ (List.cons_ne_nil _ _)).1

/-- C8 counterexample: room type "Suite" has no reservation history but
appears in competitor data on day 3, inside the forecast horizon (days 2
to 15 after the last history date 0 — day 3 of the horizon of the one-row
"King" history); the orchestrator emits zero "Suite" rows, not 14. -/
theorem runHorizon_skips_competitor_only_room_type :
    (runHorizon [⟨0, "King", 5, 10, 150⟩] [⟨3, "CompA", "Suite", 120⟩] none).countP
        (fun r => r.room_type == "Suite") = 0
    ∧ (3 : ℤ) ∈ horizonDates (read_tables [⟨0, "King", 5, 10, 150⟩])
    ∧ "Suite" ∉ (read_tables [⟨0, "King", 5, 10, 150⟩]).map (fun r => r.room_type) := by
  refine ⟨by decide, by decide, by decide⟩

/-- C8 (amended): the Horizon Orchestrator iterates only over room types
present in the reservation history; a room type absent from it — even one
appearing in competitor data during the horizon — gets no forecast rows
at all (the synthesized-default branch is not what handles it: it is
skipped entirely). -/
theorem runHorizon_only_history_room_types (res₀ : List ReservationRow)
    (comp : List CompetitorRow) (reg : Option (FeatureRow → ℚ)) (rt : String)
    (hrt : rt ∉ (read_tables res₀).map (fun r => r.room_type)) :
    (runHorizon res₀ comp reg).countP (fun r => r.room_type == rt) = 0 := by
  rw [List.countP_eq_zero]
  intro rec hrec
  obtain ⟨d, hd, rt', hrt', hEq⟩ := runHorizon_mem_inv res₀ comp reg hrec
  have hrt2 : rec.room_type = rt' := by rw [hEq, mkFutureRow_room_type]
  intro hbeq
  have : rec.room_type = rt := beq_iff_eq.mp hbeq
  rw [hrt2] at this
  subst this
  exact hrt (mem_roomTypes.mp hrt')

/-- Witness for C8's amended claim at the concrete counterexample input. -/
theorem runHorizon_only_history_room_types_witness :
    (runHorizon [⟨0, "King", 5, 10, 150⟩] [⟨3, "CompA", "Suite", 120⟩] none).countP
        (fun r => r.room_type == "Suite") = 0 :=
  runHorizon_only_history_room_types _ _ _ "Suite" (by decide)

theorem attachPreds_map_key (feats : List FeatureRow) (preds : List (Option ℚ))
    (res : List ReservationRow) :
    (attachPreds feats preds res).map (fun x => (x.room_type, x.stay_date)) =
      feats.map (fun x => (x.room_type, x.stay_date)) := by
  unfold attachPreds
  rw [map_mapIdx]
  show List.mapIdx (fun _ a => (a.room_type, a.stay_date)) feats = _
  rw [mapIdx_eq_map]

theorem build_features_map_key (res : List ReservationRow)
    (competitors : Option (List CompetitorRow)) :
    (build_features res competitors).map (fun x => (x.room_type, x.stay_date)) =
      (List.insertionSort featOrder res).map (fun r => (r.room_type, r.stay_date)) := by
  unfold build_features
  rw [map_mapIdx]
  show List.mapIdx (fun _ r => (r.room_type, r.stay_date))
    (List.insertionSort featOrder res) = _
  rw [mapIdx_eq_map]

theorem pipelinePredRows_map_key (res₀ : List ReservationRow) (comp : List CompetitorRow)
    (reg : Option (FeatureRow → ℚ)) :
    (pipelinePredRows res₀ comp reg).map (fun x => (x.room_type, x.stay_date)) =
      (List.insertionSort featOrder (read_tables res₀)).map
        (fun r => (r.room_type, r.stay_date)) := by
  unfold pipelinePredRows pipelineFeats
  rw [attachPreds_map_key, build_features_map_key]

theorem pipelinePredRows_pairwise (res₀ : List ReservationRow) (comp : List CompetitorRow)
    (reg : Option (FeatureRow → ℚ)) :
    List.Pairwise (fun a b : PredRow =>
        a.room_type < b.room_type ∨ (a.room_type = b.room_type ∧ a.stay_date ≤ b.stay_date))
      (pipelinePredRows res₀ comp reg) := by
  have hsorted : List.Pairwise featOrder
      (List.insertionSort featOrder (read_tables res₀)) :=
    List.sorted_insertionSort featOrder (read_tables res₀)
  have h1 : List.Pairwise
      (fun p q : String × ℤ => p.1 < q.1 ∨ (p.1 = q.1 ∧ p.2 ≤ q.2))
      ((List.insertionSort featOrder (read_tables res₀)).map
        (fun r => (r.room_type, r.stay_date))) := by
    rw [List.pairwise_map]
    exact hsorted
  rw [← pipelinePredRows_map_key res₀ comp reg] at h1
  rw [List.pairwise_map] at h1
  exact h1

theorem stay_date_le_getLast {l : List PredRow} {row : PredRow}
    (hpw : List.Pairwise (fun a b : PredRow => a.stay_date ≤ b.stay_date) l)
    (hlast : l.getLast? = some row) :
    ∀ x ∈ l, x.stay_date ≤ row.stay_date := by
  induction l with
  | nil => intro x hx; cases hx
  | cons a t ih =>
      intro x hx
      cases t with
      | nil =>
          have hxa : x = a := List.mem_singleton.mp hx
          have hra : a = row := by
            have : some a = some row := hlast
            exact Option.some.inj this
          rw [hxa, ← hra]
      | cons b t2 =>
          have hl2 : (b :: t2).getLast? = some row := by
            rw [← hlast]
            rfl
          rcases List.mem_cons.mp hx with rfl | hx2
          · exact List.rel_of_pairwise_cons hpw (List.mem_of_mem_getLast? hl2)
          · exact ih (List.Pairwise.of_cons hpw) hl2 x hx2

/-- C10: for a non-empty history and a room type present in it, the
as-of feature snapshot exists at every horizon date (the filter by
`stay_date ≤ d` keeps the whole group, so the synthesized-default branch
is never taken), and it is the same snapshot — the group's latest
feature row — for all 14 dates; consequently every record of that room
type carries the identical `demand_forecast`, the rounded in-sample
prediction of that latest row. -/
theorem runHorizon_constant_demand (res₀ : List ReservationRow) (comp : List CompetitorRow)
    (reg : Option (FeatureRow → ℚ)) (rt : String)
    (_hres : res₀ ≠ []) (hrt : rt ∈ roomTypes (read_tables res₀)) :
    ∃ row, ((pipelinePredRows res₀ comp reg).filter
        (fun x => x.room_type == rt)).getLast? = some row
      ∧ (∀ x ∈ (pipelinePredRows res₀ comp reg).filter (fun x => x.room_type == rt),
          x.stay_date ≤ row.stay_date)
      ∧ (∀ d ∈ horizonDates (read_tables res₀),
          (((pipelinePredRows res₀ comp reg).filter (fun x => x.room_type == rt)).filter
              (fun x => x.stay_date ≤ d)).getLast? = some row)
      ∧ (∀ rec ∈ runHorizon res₀ comp reg, rec.room_type = rt →
          rec.demand_forecast = row.pred.map round4) := by
  have hne := pipelineGroup_ne_nil res₀ comp reg rt hrt
  obtain ⟨row, hrow⟩ : ∃ row, ((pipelinePredRows res₀ comp reg).filter
      (fun x => x.room_type == rt)).getLast? = some row := by
    cases hl : ((pipelinePredRows res₀ comp reg).filter
        (fun x => x.room_type == rt)).getLast? with
    | none => exact absurd (List.getLast?_eq_none_iff.mp hl) hne
    | some r => exact ⟨r, rfl⟩
  have hpwf : List.Pairwise (fun a b : PredRow =>
      a.room_type < b.room_type ∨ (a.room_type = b.room_type ∧ a.stay_date ≤ b.stay_date))
      ((pipelinePredRows res₀ comp reg).filter (fun x => x.room_type == rt)) :=
    List.Pairwise.sublist (List.filter_sublist _) (pipelinePredRows_pairwise res₀ comp reg)
  have hpw : List.Pairwise (fun a b : PredRow => a.stay_date ≤ b.stay_date)
      ((pipelinePredRows res₀ comp reg).filter (fun x => x.room_type == rt)) := by
    refine List.Pairwise.imp_of_mem ?_ hpwf
    intro a b ha hb hR
    have hart : a.room_type = rt := by
      have h := List.of_mem_filter ha
      simpa using h
    have hbrt : b.room_type = rt := by
      have h := List.of_mem_filter hb
      simpa using h
    rcases hR with hlt | ⟨-, hle⟩
    · rw [hart, hbrt] at hlt
      exact absurd hlt (lt_irrefl rt)
    · exact hle
  have hmax := stay_date_le_getLast hpw hrow
  have hcoll : ∀ d ∈ horizonDates (read_tables res₀),
      ((pipelinePredRows res₀ comp reg).filter (fun x => x.room_type == rt)).filter
        (fun x => decide (x.stay_date ≤ d)) =
      (pipelinePredRows res₀ comp reg).filter (fun x => x.room_type == rt) := by
    intro d hd
    apply List.filter_eq_self.mpr
    intro a ha
    have h1 := pipelinePredRows_dates_le res₀ comp reg a (List.mem_of_mem_filter ha)
    exact decide_eq_true (le_of_lt (lt_of_le_of_lt h1 (lt_of_mem_horizonDates hd)))
  refine ⟨row, hrow, hmax, ?_, ?_⟩
  · intro d hd
    rw [hcoll d hd]
    exact hrow
  · intro rec hrec hrt_rec
    obtain ⟨d, hd, rt', hrt', hEq⟩ := runHorizon_mem_inv res₀ comp reg hrec
    have hrt2 : rt' = rt := by
      rw [← hrt_rec, hEq, mkFutureRow_room_type]
    subst hrt2
    obtain ⟨row', hrow', heq⟩ := runHorizon_record_eq res₀ comp reg hd hrt'
    have hrr : row' = row := by
      rw [hrow] at hrow'
      exact (Option.some.inj hrow').symm
    rw [hEq, heq, ← hrr]

/-- Witness for C10: at a concrete one-room-type history the first two
horizon records carry the identical `demand_forecast`. -/
theorem runHorizon_constant_demand_witness :
    ((runHorizon [⟨0, "King", 5, 10, 150⟩] [] none).getD 0
        ⟨0, "", none, none, 0⟩).demand_forecast =
      ((runHorizon [⟨0, "King", 5, 10, 150⟩] [] none).getD 1
        ⟨0, "", none, none, 0⟩).demand_forecast := by
  obtain ⟨row, -, -, -, hconst⟩ :=
    runHorizon_constant_demand [⟨0, "King", 5, 10, 150⟩] [] none "King"
      (List.cons_ne_nil _ _) (by decide)
  have hlen0 : 0 < (runHorizon [⟨0, "King", 5, 10, 150⟩] [] none).length := by decide
  have hlen1 : 1 < (runHorizon [⟨0, "King", 5, 10, 150⟩] [] none).length := by decide
  have h0mem : (runHorizon [⟨0, "King", 5, 10, 150⟩] [] none).getD 0
      ⟨0, "", none, none, 0⟩ ∈ runHorizon [⟨0, "King", 5, 10, 150⟩] [] none := by
    rw [List.getD_eq_getElem _ _ hlen0]
    exact List.getElem_mem hlen0
  have h1mem : (runHorizon [⟨0, "King", 5, 10, 150⟩] [] none).getD 1
      ⟨0, "", none, none, 0⟩ ∈ runHorizon [⟨0, "King", 5, 10, 150⟩] [] none := by
    rw [List.getD_eq_getElem _ _ hlen1]
    exact List.getElem_mem hlen1
  have hrt0 : ((runHorizon [⟨0, "King", 5, 10, 150⟩] [] none).getD 0
      ⟨0, "", none, none, 0⟩).room_type = "King" := by decide
  have hrt1 : ((runHorizon [⟨0, "King", 5, 10, 150⟩] [] none).getD 1
      ⟨0, "", none, none, 0⟩).room_type = "King" := by decide
  rw [hconst _ h0mem hrt0, hconst _ h1mem hrt1]
